import Mathlib

/-!
Verification development for the youtube-playlist-to-markdown repository.

The definitions below are a shallow embedding of the retrieval / fallback
logic of the repository:

* `transcribe_youtube_video` embeds the retry loop of
  src/transcribe_youtube.py (lines 96-127): the Gemini call is abstracted
  into an oracle `op : Nat → CallResult` giving the classified outcome of
  the i-th invocation, and the `random.uniform(0, 1)` jitter is abstracted
  into a function `jitter : Nat → ℚ`.
* `smart_main` embeds the fallback orchestration of
  src/transcribe_youtube_smart.py `main` (lines 234-285), with the three
  subprocess strategies abstracted into stub outcomes.
* `ytdlp_main` embeds the resource handling of
  src/transcribe_youtube_ytdlp.py `main` (lines 295-346) together with
  `upload_to_gemini` (lines 175-213).
* `sanitize_filename` and `extract_video_id` embed the functions of the
  same names (identical copies live in several source files); strings are
  modelled as `List Char`, and the slice of Python's `urllib.parse.urlparse`
  exercised by `extract_video_id` is embedded alongside.
-/

/-- Classified outcome of one invocation of the Gemini generate-content call,
mirroring the exception classification in src/transcribe_youtube.py lines
112-127: success, a 503 "overloaded" error, an "exceeds the maximum number
of tokens" error, or any other exception. -/
inductive CallResult where
  | ok
  | overloaded
  | tokenLimit
  | otherError
  deriving DecidableEq, Repr

/-- How the retry loop of `transcribe_youtube_video` terminates: a returned
transcription, the "Model overloaded after N attempts" exception (the spec's
`FatalFailure` carrying the attempt count), the "too long to process"
exception (the spec's `NotApplicable("too large")`), an exception re-raised
unchanged (the spec's `FatalFailure` passthrough), or the implicit `None`
return when `range(max_retries)` is empty. -/
inductive RetryResult where
  | success
  | fatalOverloaded (attempts : Nat)
  | tooLong
  | reraised
  | fellThrough
  deriving DecidableEq, Repr

/-- Observable trace of one run of the retry loop: how many times the
operation was invoked, the sleeps performed (in seconds, in order), and the
final result. -/
structure RetryTrace where
  calls : Nat
  waits : List ℚ
  result : RetryResult
  deriving DecidableEq, Repr

/-- The body of `for attempt in range(max_retries)` of
src/transcribe_youtube.py lines 96-127, one iteration per step.
`remaining` counts the iterations the `range` still has (the caller keeps
`attempt + remaining = maxRetries`).  On `overloaded` with
`attempt < max_retries - 1` the code sleeps `2 ** attempt +
random.uniform(0, 1)` seconds and continues; on the last attempt it raises
the "Model overloaded after max_retries attempts" exception.  `tokenLimit`
and any other exception abort immediately without sleeping. -/
def retryGo (op : Nat → CallResult) (jitter : Nat → ℚ) (maxRetries : Nat) :
    Nat → Nat → RetryTrace
  | _, 0 => ⟨0, [], RetryResult.fellThrough⟩
  | attempt, remaining + 1 =>
    match op attempt with
    | CallResult.ok => ⟨1, [], RetryResult.success⟩
    | CallResult.overloaded =>
      if attempt < maxRetries - 1 then
        let rest := retryGo op jitter maxRetries (attempt + 1) remaining
        ⟨rest.calls + 1, ((2 : ℚ) ^ attempt + jitter attempt) :: rest.waits,
          rest.result⟩
      else ⟨1, [], RetryResult.fatalOverloaded maxRetries⟩
    | CallResult.tokenLimit => ⟨1, [], RetryResult.tooLong⟩
    | CallResult.otherError => ⟨1, [], RetryResult.reraised⟩

/-- The retry wrapper of src/transcribe_youtube.py (`transcribe_youtube_video`,
lines 96-127); this is the spec's `RetryPolicy.with_retry` with
`max_attempts = maxRetries`. -/
def transcribe_youtube_video (op : Nat → CallResult) (jitter : Nat → ℚ)
    (maxRetries : Nat) : RetryTrace :=
  retryGo op jitter maxRetries 0 maxRetries

/-- C1: an operation that returns `TransientFailure` (the 503 "overloaded"
error) on every invocation, run with `max_attempts = 5`, is invoked exactly
5 times and the loop then raises the fatal "Model overloaded after 5
attempts" exception carrying the attempt count; no sixth invocation occurs. -/
theorem c1_retry_exhausts_five_attempts (op : Nat → CallResult)
    (jitter : Nat → ℚ) (h : ∀ i, op i = CallResult.overloaded) :
    (transcribe_youtube_video op jitter 5).calls = 5 ∧
    (transcribe_youtube_video op jitter 5).result =
      RetryResult.fatalOverloaded 5 := by
  simp [transcribe_youtube_video, retryGo, h]

/-- Witness for C1 at a concrete always-overloaded operation. -/
theorem c1_retry_witness :
    (transcribe_youtube_video (fun _ => CallResult.overloaded) (fun _ => 0)
        5).calls = 5 ∧
    (transcribe_youtube_video (fun _ => CallResult.overloaded) (fun _ => 0)
        5).result = RetryResult.fatalOverloaded 5 :=
  c1_retry_exhausts_five_attempts _ _ (fun _ => rfl)

/-- C6: an operation whose first invocation raises the token-limit error
(the spec's `NotApplicable`) or any other non-overload exception (the spec's
`FatalFailure`) is invoked exactly once: the outcome passes through with one
call, no consumed retry and no backoff sleep. -/
theorem c6_passthrough_no_retry (op : Nat → CallResult) (jitter : Nat → ℚ)
    (m : Nat) (hm : 1 ≤ m) :
    (op 0 = CallResult.tokenLimit →
      transcribe_youtube_video op jitter m =
        ⟨1, [], RetryResult.tooLong⟩) ∧
    (op 0 = CallResult.otherError →
      transcribe_youtube_video op jitter m =
        ⟨1, [], RetryResult.reraised⟩) := by
  obtain ⟨m', rfl⟩ : ∃ m', m = m' + 1 := ⟨m - 1, by omega⟩
  constructor <;> intro h0 <;> simp [transcribe_youtube_video, retryGo, h0]

/-- Witness for C6 at a concrete token-limit operation and max 5. -/
theorem c6_witness :
    (((fun _ => CallResult.tokenLimit) : Nat → CallResult) 0 =
        CallResult.tokenLimit →
      transcribe_youtube_video (fun _ => CallResult.tokenLimit) (fun _ => 0)
          5 = ⟨1, [], RetryResult.tooLong⟩) ∧
    (((fun _ => CallResult.tokenLimit) : Nat → CallResult) 0 =
        CallResult.otherError →
      transcribe_youtube_video (fun _ => CallResult.tokenLimit) (fun _ => 0)
          5 = ⟨1, [], RetryResult.reraised⟩) :=
  c6_passthrough_no_retry (fun _ => CallResult.tokenLimit) (fun _ => 0) 5
    (by decide)

/-- Positions in the wait list follow the schedule `2 ^ (attempt + i) +
jitter (attempt + i)` when the loop is entered at `attempt`. -/
theorem retryGo_waits_get (op : Nat → CallResult) (jitter : Nat → ℚ)
    (m : Nat) :
    ∀ remaining attempt i w,
      ((retryGo op jitter m attempt remaining).waits)[i]? = some w →
      w = (2 : ℚ) ^ (attempt + i) + jitter (attempt + i) := by
  intro remaining
  induction remaining with
  | zero =>
    intro attempt i w hw
    simp [retryGo] at hw
  | succ n ih =>
    intro attempt i w hw
    cases hop : op attempt with
    | ok => simp [retryGo, hop] at hw
    | overloaded =>
      by_cases hlt : attempt < m - 1
      · simp only [retryGo, hop, if_pos hlt] at hw
        cases i with
        | zero =>
          simp at hw
          simpa using hw.symm
        | succ i' =>
          simp only [List.getElem?_cons_succ] at hw
          have h2 : attempt + (i' + 1) = (attempt + 1) + i' := by omega
          rw [h2]
          exact ih (attempt + 1) i' w hw
      · simp [retryGo, hop, if_neg hlt] at hw
    | tokenLimit => simp [retryGo, hop] at hw
    | otherError => simp [retryGo, hop] at hw

/-- C7: whenever a k-th attempt (1-indexed, k ≥ 2) is preceded by a sleep,
that sleep lasts `2 ^ (k - 2) + jitter` seconds with the jitter in `[0, 1)`:
it lies in `[2 ^ (k - 2), 2 ^ (k - 2) + 1)`, the wait before the first retry
lies in `[1, 2)`, and the deterministic part doubles from each retry to the
next.  The sleep before attempt k is entry k - 2 of the wait list. -/
theorem c7_backoff_schedule (op : Nat → CallResult) (jitter : Nat → ℚ)
    (m : Nat) (hj : ∀ i, 0 ≤ jitter i ∧ jitter i < 1) :
    ∀ k w, 2 ≤ k →
      ((transcribe_youtube_video op jitter m).waits)[k - 2]? = some w →
      w = (2 : ℚ) ^ (k - 2) + jitter (k - 2) ∧
      (2 : ℚ) ^ (k - 2) ≤ w ∧ w < (2 : ℚ) ^ (k - 2) + 1 ∧
      (k = 2 → 1 ≤ w ∧ w < 2) ∧
      (∀ w', ((transcribe_youtube_video op jitter m).waits)[k - 1]? =
          some w' →
        w' - jitter (k - 1) = 2 * (w - jitter (k - 2))) := by
  intro k w hk hw
  have h := retryGo_waits_get op jitter m m 0 (k - 2) w hw
  simp only [Nat.zero_add] at h
  have hj0 := hj (k - 2)
  refine ⟨h, by rw [h]; linarith [hj0.1], by rw [h]; linarith [hj0.2],
    ?_, ?_⟩
  · intro hk2
    subst hk2
    simp only [Nat.sub_self, pow_zero] at h
    exact ⟨by rw [h]; linarith [hj0.1], by rw [h]; linarith [hj0.2]⟩
  · intro w' hw'
    have h' := retryGo_waits_get op jitter m m 0 (k - 1) w' hw'
    simp only [Nat.zero_add] at h'
    have hsucc : k - 1 = (k - 2) + 1 := by omega
    rw [h, h', hsucc, pow_succ]
    ring

/-- Witness for C7: always-overloaded operation, jitter 1/2, max 5, k = 2. -/
theorem c7_witness :
    ((3 : ℚ) / 2) = (2 : ℚ) ^ (2 - 2 : Nat) +
        (fun _ => (1 : ℚ) / 2) (2 - 2 : Nat) ∧
    (2 : ℚ) ^ (2 - 2 : Nat) ≤ (3 : ℚ) / 2 ∧
    (3 : ℚ) / 2 < (2 : ℚ) ^ (2 - 2 : Nat) + 1 ∧
    ((2 : Nat) = 2 → 1 ≤ (3 : ℚ) / 2 ∧ (3 : ℚ) / 2 < 2) ∧
    (∀ w', ((transcribe_youtube_video (fun _ => CallResult.overloaded)
          (fun _ => (1 : ℚ) / 2) 5).waits)[2 - 1]? = some w' →
      w' - (fun _ => (1 : ℚ) / 2) (2 - 1 : Nat) =
        2 * ((3 : ℚ) / 2 - (fun _ => (1 : ℚ) / 2) (2 - 2 : Nat))) :=
  c7_backoff_schedule (fun _ => CallResult.overloaded)
    (fun _ => (1 : ℚ) / 2) 5
    (fun _ => ⟨by norm_num, by norm_num⟩) 2 ((3 : ℚ) / 2) (by norm_num)
    (by norm_num [transcribe_youtube_video, retryGo])

/-- Granularity of the requested artifact: the `--mode` choices
transcribe / summarize / outline of src/transcribe_youtube_smart.py. -/
inductive Mode where
  | transcribe
  | summarize
  | outline
  deriving DecidableEq, Repr

/-- The three retrieval strategies the orchestrator sequences:
`try_youtube_api` (captions), `try_gemini_api` (direct media) and
`try_ytdlp_gemini` (local download). -/
inductive Strat where
  | captions
  | direct
  | localStrat
  deriving DecidableEq, Repr

/-- Outcome recorded for one strategy invocation in the attempt log. -/
inductive AttOutcome where
  | success
  | failure
  | tooLarge
  deriving DecidableEq, Repr

/-- One entry of the attempt log: which strategy was invoked, at which
granularity, and with which classified outcome. -/
structure Attempt where
  strat : Strat
  mode : Mode
  outcome : AttOutcome
  deriving DecidableEq, Repr

/-- Return value of `try_gemini_api` in src/transcribe_youtube_smart.py
lines 144-172: `True`, the string `"token_limit"`, or `False`. -/
inductive GeminiRes where
  | success
  | tokenLimit
  | failed
  deriving DecidableEq, Repr

/-- The command-line switches of src/transcribe_youtube_smart.py `main`
that steer the fallback machine: `--force-gemini`, `--force-ytdlp`, and
`--mode`. -/
structure SmartArgs where
  forceGemini : Bool
  forceYtdlp : Bool
  mode : Mode

/-- Stubbed environment of one orchestration run: whether
`check_youtube_transcript_api()` succeeds at the decision point (line 252),
and the outcome each strategy subprocess would report.  `ytdlp_gemini` is a
function of the mode because the orchestrator may invoke it at several
granularities. -/
structure Stubs where
  apiAvailable : Bool
  youtube_api : Bool
  gemini_api : GeminiRes
  ytdlp_gemini : Mode → Bool

/-- Exit code of the orchestrator plus the ordered attempt log. -/
structure RunResult where
  exitCode : Nat
  log : List Attempt
  deriving DecidableEq, Repr

def boolOutcome (b : Bool) : AttOutcome :=
  if b then AttOutcome.success else AttOutcome.failure

def geminiOutcome : GeminiRes → AttOutcome
  | GeminiRes.success => AttOutcome.success
  | GeminiRes.tokenLimit => AttOutcome.tooLarge
  | GeminiRes.failed => AttOutcome.failure

/-- The fallback orchestration of src/transcribe_youtube_smart.py `main`,
lines 234-285.  Step 1: `--force-ytdlp` runs only the local strategy.
Step 2: otherwise, unless `--force-gemini`, captions are tried when the
transcript API is importable.  Step 3: on no success so far the direct
Gemini strategy runs; a `"token_limit"` result escalates to the local
strategy at the requested mode, and, when that fails and the requested mode
is `transcribe`, downgrades to summarize and then outline.  The attempt log
records every strategy subprocess invocation in order (captions always
fetches a verbatim transcript, so its entry carries `Mode.transcribe`). -/
def smart_main (args : SmartArgs) (st : Stubs) : RunResult :=
  if args.forceYtdlp then
    let ok := st.ytdlp_gemini args.mode
    ⟨if ok then 0 else 1, [⟨Strat.localStrat, args.mode, boolOutcome ok⟩]⟩
  else
    let capTried := !args.forceGemini && st.apiAvailable
    let capOk := capTried && st.youtube_api
    let log0 : List Attempt :=
      if capTried then
        [⟨Strat.captions, Mode.transcribe, boolOutcome st.youtube_api⟩]
      else []
    if capOk then ⟨0, log0⟩
    else
      let g := st.gemini_api
      let log1 := log0 ++ [⟨Strat.direct, args.mode, geminiOutcome g⟩]
      match g with
      | GeminiRes.success => ⟨0, log1⟩
      | GeminiRes.failed => ⟨1, log1⟩
      | GeminiRes.tokenLimit =>
        let ok1 := st.ytdlp_gemini args.mode
        let log2 := log1 ++ [⟨Strat.localStrat, args.mode, boolOutcome ok1⟩]
        if ok1 then ⟨0, log2⟩
        else if args.mode = Mode.transcribe then
          let ok2 := st.ytdlp_gemini Mode.summarize
          let log3 :=
            log2 ++ [⟨Strat.localStrat, Mode.summarize, boolOutcome ok2⟩]
          if ok2 then ⟨0, log3⟩
          else
            let ok3 := st.ytdlp_gemini Mode.outline
            let log4 :=
              log3 ++ [⟨Strat.localStrat, Mode.outline, boolOutcome ok3⟩]
            ⟨if ok3 then 0 else 1, log4⟩
        else ⟨1, log2⟩

/-- The first (and, by construction, only) successful attempt of a run. -/
def firstSuccess (r : RunResult) : Option Attempt :=
  r.log.find? (fun a => decide (a.outcome = AttOutcome.success))

/-- Granularity of the successful attempt, when the run succeeded. -/
def finalGranularity (r : RunResult) : Option Mode :=
  (firstSuccess r).map (fun a => a.mode)

/-- Strategy of the successful attempt, when the run succeeded. -/
def producingStrategy (r : RunResult) : Option Strat :=
  (firstSuccess r).map (fun a => a.strat)

/-- Concrete stub environment for the C2 scenario: captions available but
failing, direct reporting the token limit, local succeeding only at
outline granularity. -/
def c2Stubs : Stubs :=
  ⟨true, false, GeminiRes.tokenLimit,
    fun m => match m with
      | Mode.outline => true
      | _ => false⟩

/-- Counterexample to C2 as stated: in the enumerated scenario (captions
attempted and failing, direct too large, local failing at transcript and
summarize and succeeding at outline) the run does succeed at outline, but
the attempt log has 5 entries, not 4. -/
theorem c2_counterexample :
    (smart_main ⟨false, false, Mode.transcribe⟩ c2Stubs).exitCode = 0 ∧
    finalGranularity (smart_main ⟨false, false, Mode.transcribe⟩ c2Stubs) =
      some Mode.outline ∧
    (smart_main ⟨false, false, Mode.transcribe⟩ c2Stubs).log.length = 5 ∧
    ¬ (smart_main ⟨false, false, Mode.transcribe⟩ c2Stubs).log.length = 4 :=
  by decide

/-- C2 (amended): with direct reporting "too large" and local failing at
transcript and summarize but succeeding at outline, the orchestrator
produces a successful run with final granularity outline; the attempt log
has 5 entries (captions, direct, local-transcript, local-summarize,
local-outline) when the captions strategy was attempted (and failed), and
4 entries (without the captions entry) when it was skipped. -/
theorem c2_downgrade_to_outline_amended (st : Stubs)
    (hg : st.gemini_api = GeminiRes.tokenLimit)
    (h1 : st.ytdlp_gemini Mode.transcribe = false)
    (h2 : st.ytdlp_gemini Mode.summarize = false)
    (h3 : st.ytdlp_gemini Mode.outline = true)
    (hc : st.apiAvailable = true → st.youtube_api = false) :
    (smart_main ⟨false, false, Mode.transcribe⟩ st).exitCode = 0 ∧
    finalGranularity (smart_main ⟨false, false, Mode.transcribe⟩ st) =
      some Mode.outline ∧
    producingStrategy (smart_main ⟨false, false, Mode.transcribe⟩ st) =
      some Strat.localStrat ∧
    (st.apiAvailable = true →
      (smart_main ⟨false, false, Mode.transcribe⟩ st).log =
        [⟨Strat.captions, Mode.transcribe, AttOutcome.failure⟩,
         ⟨Strat.direct, Mode.transcribe, AttOutcome.tooLarge⟩,
         ⟨Strat.localStrat, Mode.transcribe, AttOutcome.failure⟩,
         ⟨Strat.localStrat, Mode.summarize, AttOutcome.failure⟩,
         ⟨Strat.localStrat, Mode.outline, AttOutcome.success⟩]) ∧
    (st.apiAvailable = false →
      (smart_main ⟨false, false, Mode.transcribe⟩ st).log =
        [⟨Strat.direct, Mode.transcribe, AttOutcome.tooLarge⟩,
         ⟨Strat.localStrat, Mode.transcribe, AttOutcome.failure⟩,
         ⟨Strat.localStrat, Mode.summarize, AttOutcome.failure⟩,
         ⟨Strat.localStrat, Mode.outline, AttOutcome.success⟩]) := by
  cases hApi : st.apiAvailable with
  | true =>
    have hyt := hc hApi
    have hrun : smart_main ⟨false, false, Mode.transcribe⟩ st =
        ⟨0, [⟨Strat.captions, Mode.transcribe, AttOutcome.failure⟩,
             ⟨Strat.direct, Mode.transcribe, AttOutcome.tooLarge⟩,
             ⟨Strat.localStrat, Mode.transcribe, AttOutcome.failure⟩,
             ⟨Strat.localStrat, Mode.summarize, AttOutcome.failure⟩,
             ⟨Strat.localStrat, Mode.outline, AttOutcome.success⟩]⟩ := by
      simp [smart_main, hApi, hyt, hg, h1, h2, h3, boolOutcome,
        geminiOutcome]
    rw [hrun]
    refine ⟨rfl, by decide, by decide, fun _ => rfl, fun hcontra => ?_⟩
    simp [hApi] at hcontra
  | false =>
    have hrun : smart_main ⟨false, false, Mode.transcribe⟩ st =
        ⟨0, [⟨Strat.direct, Mode.transcribe, AttOutcome.tooLarge⟩,
             ⟨Strat.localStrat, Mode.transcribe, AttOutcome.failure⟩,
             ⟨Strat.localStrat, Mode.summarize, AttOutcome.failure⟩,
             ⟨Strat.localStrat, Mode.outline, AttOutcome.success⟩]⟩ := by
      simp [smart_main, hApi, hg, h1, h2, h3, boolOutcome, geminiOutcome]
    rw [hrun]
    refine ⟨rfl, by decide, by decide, fun hcontra => ?_, fun _ => rfl⟩
    simp [hApi] at hcontra

/-- Witness for the amended C2 at the concrete stub environment. -/
theorem c2_amended_witness :
    (smart_main ⟨false, false, Mode.transcribe⟩ c2Stubs).exitCode = 0 ∧
    finalGranularity (smart_main ⟨false, false, Mode.transcribe⟩ c2Stubs) =
      some Mode.outline ∧
    producingStrategy (smart_main ⟨false, false, Mode.transcribe⟩ c2Stubs) =
      some Strat.localStrat ∧
    (c2Stubs.apiAvailable = true →
      (smart_main ⟨false, false, Mode.transcribe⟩ c2Stubs).log =
        [⟨Strat.captions, Mode.transcribe, AttOutcome.failure⟩,
         ⟨Strat.direct, Mode.transcribe, AttOutcome.tooLarge⟩,
         ⟨Strat.localStrat, Mode.transcribe, AttOutcome.failure⟩,
         ⟨Strat.localStrat, Mode.summarize, AttOutcome.failure⟩,
         ⟨Strat.localStrat, Mode.outline, AttOutcome.success⟩]) ∧
    (c2Stubs.apiAvailable = false →
      (smart_main ⟨false, false, Mode.transcribe⟩ c2Stubs).log =
        [⟨Strat.direct, Mode.transcribe, AttOutcome.tooLarge⟩,
         ⟨Strat.localStrat, Mode.transcribe, AttOutcome.failure⟩,
         ⟨Strat.localStrat, Mode.summarize, AttOutcome.failure⟩,
         ⟨Strat.localStrat, Mode.outline, AttOutcome.success⟩]) :=
  c2_downgrade_to_outline_amended c2Stubs rfl rfl rfl rfl (fun _ => rfl)

/-- C3: when direct reports "too large" the orchestrator escalates to the
local strategy at the originally requested granularity without retrying
direct; when local then succeeds at transcript granularity the run succeeds
with final granularity transcript, direct appears exactly once in the log,
and the only local attempt is the successful transcript one (no downgrade
attempted). -/
theorem c3_too_large_escalates_no_downgrade (st : Stubs)
    (hg : st.gemini_api = GeminiRes.tokenLimit)
    (h1 : st.ytdlp_gemini Mode.transcribe = true)
    (hc : st.apiAvailable = true → st.youtube_api = false) :
    (smart_main ⟨false, false, Mode.transcribe⟩ st).exitCode = 0 ∧
    finalGranularity (smart_main ⟨false, false, Mode.transcribe⟩ st) =
      some Mode.transcribe ∧
    ((smart_main ⟨false, false, Mode.transcribe⟩ st).log.filter
        (fun a => decide (a.strat = Strat.direct))).length = 1 ∧
    (smart_main ⟨false, false, Mode.transcribe⟩ st).log.filter
        (fun a => decide (a.strat = Strat.localStrat)) =
      [⟨Strat.localStrat, Mode.transcribe, AttOutcome.success⟩] := by
  cases hApi : st.apiAvailable with
  | true =>
    have hyt := hc hApi
    have hrun : smart_main ⟨false, false, Mode.transcribe⟩ st =
        ⟨0, [⟨Strat.captions, Mode.transcribe, AttOutcome.failure⟩,
             ⟨Strat.direct, Mode.transcribe, AttOutcome.tooLarge⟩,
             ⟨Strat.localStrat, Mode.transcribe, AttOutcome.success⟩]⟩ := by
      simp [smart_main, hApi, hyt, hg, h1, boolOutcome, geminiOutcome]
    rw [hrun]
    decide
  | false =>
    have hrun : smart_main ⟨false, false, Mode.transcribe⟩ st =
        ⟨0, [⟨Strat.direct, Mode.transcribe, AttOutcome.tooLarge⟩,
             ⟨Strat.localStrat, Mode.transcribe, AttOutcome.success⟩]⟩ := by
      simp [smart_main, hApi, hg, h1, boolOutcome, geminiOutcome]
    rw [hrun]
    decide

/-- Concrete stub environment for the C3 scenario. -/
def c3Stubs : Stubs :=
  ⟨true, false, GeminiRes.tokenLimit, fun _ => true⟩

/-- Witness for C3 at the concrete stub environment. -/
theorem c3_witness :
    (smart_main ⟨false, false, Mode.transcribe⟩ c3Stubs).exitCode = 0 ∧
    finalGranularity (smart_main ⟨false, false, Mode.transcribe⟩ c3Stubs) =
      some Mode.transcribe ∧
    ((smart_main ⟨false, false, Mode.transcribe⟩ c3Stubs).log.filter
        (fun a => decide (a.strat = Strat.direct))).length = 1 ∧
    (smart_main ⟨false, false, Mode.transcribe⟩ c3Stubs).log.filter
        (fun a => decide (a.strat = Strat.localStrat)) =
      [⟨Strat.localStrat, Mode.transcribe, AttOutcome.success⟩] :=
  c3_too_large_escalates_no_downgrade c3Stubs rfl rfl (fun _ => rfl)

/-- C4: with captions attempted and reporting "no captions" and direct
succeeding, the run succeeds with producing strategy direct and an attempt
log of exactly two entries — captions once (first), then direct — and the
local strategy is never invoked. -/
theorem c4_captions_then_direct (st : Stubs) (m : Mode)
    (hApi : st.apiAvailable = true) (hyt : st.youtube_api = false)
    (hg : st.gemini_api = GeminiRes.success) :
    (smart_main ⟨false, false, m⟩ st).exitCode = 0 ∧
    producingStrategy (smart_main ⟨false, false, m⟩ st) =
      some Strat.direct ∧
    (smart_main ⟨false, false, m⟩ st).log =
      [⟨Strat.captions, Mode.transcribe, AttOutcome.failure⟩,
       ⟨Strat.direct, m, AttOutcome.success⟩] := by
  have hrun : smart_main ⟨false, false, m⟩ st =
      ⟨0, [⟨Strat.captions, Mode.transcribe, AttOutcome.failure⟩,
           ⟨Strat.direct, m, AttOutcome.success⟩]⟩ := by
    simp [smart_main, hApi, hyt, hg, boolOutcome, geminiOutcome]
  rw [hrun]
  refine ⟨rfl, ?_, rfl⟩
  simp [producingStrategy, firstSuccess]

/-- Concrete stub environment for the C4 scenario. -/
def c4Stubs : Stubs :=
  ⟨true, false, GeminiRes.success, fun _ => false⟩

/-- Witness for C4 at the concrete stub environment. -/
theorem c4_witness :
    (smart_main ⟨false, false, Mode.transcribe⟩ c4Stubs).exitCode = 0 ∧
    producingStrategy (smart_main ⟨false, false, Mode.transcribe⟩ c4Stubs) =
      some Strat.direct ∧
    (smart_main ⟨false, false, Mode.transcribe⟩ c4Stubs).log =
      [⟨Strat.captions, Mode.transcribe, AttOutcome.failure⟩,
       ⟨Strat.direct, Mode.transcribe, AttOutcome.success⟩] :=
  c4_captions_then_direct c4Stubs Mode.transcribe rfl rfl rfl

/-- Concrete stub environment for the C5 counterexample: direct reports the
token limit and local download would succeed. -/
def c5Stubs : Stubs :=
  ⟨true, false, GeminiRes.tokenLimit, fun _ => true⟩

/-- Counterexample to C5 as stated: with `--force-gemini` (direct strategy
forced, captions skipped) and direct reporting the token limit, the
orchestrator still invokes the local download strategy — the log records a
second, non-direct strategy invocation. -/
theorem c5_counterexample :
    (smart_main ⟨true, false, Mode.transcribe⟩ c5Stubs).log.map
        (fun a => a.strat) = [Strat.direct, Strat.localStrat] ∧
    ¬ (smart_main ⟨true, false, Mode.transcribe⟩ c5Stubs).log.map
        (fun a => a.strat) = [Strat.direct] := by
  decide

/-- C5 (amended): forcing the local download strategy (`--force-ytdlp`)
invokes only that strategy, whatever its outcome and whatever the other
flags; forcing the direct strategy (`--force-gemini`) skips captions and
invokes only direct for any outcome other than the token limit, but on a
token-limit outcome the orchestrator still falls back to the local
download strategy. -/
theorem c5_forced_strategy_amended :
    (∀ (st : Stubs) (m : Mode) (fg : Bool),
      (smart_main ⟨fg, true, m⟩ st).log.map (fun a => a.strat) =
        [Strat.localStrat]) ∧
    (∀ (st : Stubs) (m : Mode), ¬ st.gemini_api = GeminiRes.tokenLimit →
      (smart_main ⟨true, false, m⟩ st).log.map (fun a => a.strat) =
        [Strat.direct]) ∧
    (∀ (st : Stubs) (m : Mode), st.gemini_api = GeminiRes.tokenLimit →
      ((smart_main ⟨true, false, m⟩ st).log.map
          (fun a => a.strat)).take 2 = [Strat.direct, Strat.localStrat]) := by
  refine ⟨fun st m fg => ?_, fun st m hg => ?_, fun st m hg => ?_⟩
  · cases h : st.ytdlp_gemini m <;> simp [smart_main, h]
  · cases hg2 : st.gemini_api with
    | success => simp [smart_main, hg2]
    | tokenLimit => exact absurd hg2 hg
    | failed => simp [smart_main, hg2]
  · cases h1 : st.ytdlp_gemini m with
    | true => simp [smart_main, hg, h1]
    | false =>
      cases hm : m with
      | transcribe =>
        cases h2 : st.ytdlp_gemini Mode.summarize with
        | true => simp [smart_main, hg, hm ▸ h1, h2]
        | false =>
          cases h3 : st.ytdlp_gemini Mode.outline <;>
            simp [smart_main, hg, hm ▸ h1, h2, h3]
      | summarize => simp [smart_main, hg, hm ▸ h1]
      | outline => simp [smart_main, hg, hm ▸ h1]

/-- Witness for the amended C5 at concrete stub environments. -/
theorem c5_witness :
    (smart_main ⟨false, true, Mode.transcribe⟩ c4Stubs).log.map
        (fun a => a.strat) = [Strat.localStrat] ∧
    (smart_main ⟨true, false, Mode.transcribe⟩ c4Stubs).log.map
        (fun a => a.strat) = [Strat.direct] ∧
    ((smart_main ⟨true, false, Mode.transcribe⟩ c5Stubs).log.map
        (fun a => a.strat)).take 2 = [Strat.direct, Strat.localStrat] :=
  ⟨c5_forced_strategy_amended.1 c4Stubs Mode.transcribe false,
   c5_forced_strategy_amended.2.1 c4Stubs Mode.transcribe (by decide),
   c5_forced_strategy_amended.2.2 c5Stubs Mode.transcribe rfl⟩

/-- How `upload_to_gemini` (src/transcribe_youtube_ytdlp.py lines 175-213)
terminates.  `notUploaded`: the `genai_old.upload_file` call itself raised,
so no remote artifact exists.  `pollRaised`: the artifact was created but a
`get_file` call of the readiness poll raised.  `pollFailed`: the artifact
was created and the poll observed state FAILED, so the function raises
"File upload failed".  `ready`: the artifact was created, became ACTIVE,
and the handle is returned to `main`. -/
inductive UploadResult where
  | notUploaded
  | pollRaised
  | pollFailed
  | ready
  deriving DecidableEq, Repr

/-- Observable resource outcome of one run of the local-download strategy:
whether a remote artifact was created on the inference service, whether
`cleanup_gemini_file` was invoked on it, and the process exit code. -/
structure YtdlpRun where
  uploadedRemote : Bool
  cleanedRemote : Bool
  exitCode : Nat
  deriving DecidableEq, Repr

/-- The try/except/finally of src/transcribe_youtube_ytdlp.py `main`
(lines 295-346).  `uploaded_file` starts as `None` and is assigned only
when `upload_to_gemini` RETURNS; the `finally` block runs
`cleanup_gemini_file(uploaded_file)` only `if uploaded_file:`.  Hence when
`upload_to_gemini` raises after the remote artifact was already created
(poll observed FAILED, or `get_file` raised), `main`'s local variable is
still `None` and the cleanup is skipped. -/
def ytdlp_main (downloadOk : Bool) (upload : UploadResult)
    (genOk : Bool) (saveOk : Bool) : YtdlpRun :=
  if downloadOk = false then ⟨false, false, 1⟩
  else
    match upload with
    | UploadResult.notUploaded => ⟨false, false, 1⟩
    | UploadResult.pollRaised => ⟨true, false, 1⟩
    | UploadResult.pollFailed => ⟨true, false, 1⟩
    | UploadResult.ready =>
      if genOk = false then ⟨true, true, 1⟩
      else if saveOk = false then ⟨true, true, 1⟩
      else ⟨true, true, 0⟩

/-- C9 (code bug): on the exit path where the audio was uploaded but the
readiness poll reports FAILED, the remote artifact is NOT deleted — the
run ends with an uploaded, never-cleaned remote file, contradicting the
delete-on-every-exit-path guarantee.  (On the success, generation-failure
and post-upload-exception paths the cleanup does run, as the last two
conjuncts record.) -/
theorem c9_poll_failure_leaks_upload :
    (ytdlp_main true UploadResult.pollFailed true true).uploadedRemote =
        true ∧
    (ytdlp_main true UploadResult.pollFailed true true).cleanedRemote =
        false ∧
    (ytdlp_main true UploadResult.ready true true).cleanedRemote = true ∧
    (ytdlp_main true UploadResult.ready false true).cleanedRemote = true := by
  decide

/-- The Unicode code points Python's `str.split()` / `str.strip()` treat as
whitespace. -/
def pyWhitespaceChars : List Char :=
  ['\t', '\n', '\u000B', '\u000C', '\r', '\u001C', '\u001D', '\u001E',
   '\u001F', ' ', '\u0085', '\u00A0', '\u1680', '\u2000', '\u2001',
   '\u2002', '\u2003', '\u2004', '\u2005', '\u2006', '\u2007', '\u2008',
   '\u2009', '\u200A', '\u2028', '\u2029', '\u202F', '\u205F', '\u3000']

/-- Python whitespace test (`c.isspace()`). -/
def pyWs (c : Char) : Bool := pyWhitespaceChars.contains c

/-- The characters removed by `sanitize_filename`
(`invalid_chars = '<>:"/\\|?*'`). -/
def invalid_chars : List Char :=
  ['<', '>', ':', '\"', '/', '\\', '|', '?', '*']

/-- Helper for Python's no-argument `str.split()`: accumulates the current
token (reversed) in `acc`, splitting on whitespace runs and dropping empty
tokens. -/
def pySplitAux : List Char → List Char → List (List Char)
  | [], acc => if acc = [] then [] else [acc.reverse]
  | c :: cs, acc =>
    if pyWs c then
      if acc = [] then pySplitAux cs []
      else acc.reverse :: pySplitAux cs []
    else pySplitAux cs (c :: acc)

/-- Python's `str.split()` with no separator. -/
def pySplit (s : List Char) : List (List Char) := pySplitAux s []

/-- Python's `' '.join(tokens)`. -/
def joinWithSpace : List (List Char) → List Char
  | [] => []
  | [t] => t
  | t :: ts => t ++ ' ' :: joinWithSpace ts

/-- Python's `str.strip()` with no argument: drop whitespace from both
ends. -/
def pyStrip (s : List Char) : List Char :=
  ((s.dropWhile pyWs).reverse.dropWhile pyWs).reverse

/-- `sanitize_filename` of src/transcribe_youtube_smart.py lines 81-92 (the
same function also lives in src/transcribe_youtube.py,
src/transcribe_youtube_api.py and src/transcribe_youtube_ytdlp.py): remove
the invalid characters, collapse whitespace runs to single spaces, truncate
to 200 characters, and strip. -/
def sanitize_filename (s : List Char) : List Char :=
  let s1 := s.filter (fun c => !(invalid_chars.contains c))
  let s2 := joinWithSpace (pySplit s1)
  let s3 := if 200 < s2.length then s2.take 200 else s2
  pyStrip s3

/-- Every character of a token produced by `pySplitAux` comes from the
input or from the accumulator. -/
theorem pySplitAux_mem (s : List Char) :
    ∀ acc t, t ∈ pySplitAux s acc → ∀ c, c ∈ t → c ∈ s ∨ c ∈ acc := by
  induction s with
  | nil =>
    intro acc t ht c hc
    by_cases ha : acc = []
    · simp [pySplitAux, ha] at ht
    · simp [pySplitAux, ha] at ht
      subst ht
      right
      simpa using hc
  | cons d ds ih =>
    intro acc t ht c hc
    cases hws : pyWs d with
    | true =>
      by_cases ha : acc = []
      · simp only [pySplitAux, hws, if_pos ha, if_true] at ht
        rcases ih [] t ht c hc with h | h
        · exact Or.inl (List.mem_cons_of_mem d h)
        · simp at h
      · simp only [pySplitAux, hws, if_neg ha, if_true] at ht
        rcases List.mem_cons.mp ht with rfl | ht'
        · right
          simpa using hc
        · rcases ih [] t ht' c hc with h | h
          · exact Or.inl (List.mem_cons_of_mem d h)
          · simp at h
    | false =>
      simp only [pySplitAux, hws] at ht
      rcases ih (d :: acc) t ht c hc with h | h
      · exact Or.inl (List.mem_cons_of_mem d h)
      · rcases List.mem_cons.mp h with rfl | h'
        · exact Or.inl (List.mem_cons_self _ _)
        · exact Or.inr h'

/-- When the accumulator holds only non-whitespace characters, every token
produced by `pySplitAux` is nonempty and whitespace-free. -/
theorem pySplitAux_tokens (s : List Char) :
    ∀ acc, acc.all (fun c => !pyWs c) = true →
      ∀ t, t ∈ pySplitAux s acc →
        t ≠ [] ∧ t.all (fun c => !pyWs c) = true := by
  induction s with
  | nil =>
    intro acc hacc t ht
    by_cases ha : acc = []
    · simp [pySplitAux, ha] at ht
    · simp [pySplitAux, ha] at ht
      subst ht
      exact ⟨by simpa using ha, by simpa using hacc⟩
  | cons d ds ih =>
    intro acc hacc t ht
    cases hws : pyWs d with
    | true =>
      by_cases ha : acc = []
      · simp only [pySplitAux, hws, if_pos ha, if_true] at ht
        exact ih [] rfl t ht
      · simp only [pySplitAux, hws, if_neg ha, if_true] at ht
        rcases List.mem_cons.mp ht with rfl | ht'
        · exact ⟨by simpa using ha, by simpa using hacc⟩
        · exact ih [] rfl t ht'
    | false =>
      simp only [pySplitAux, hws] at ht
      exact ih (d :: acc) (by simp [hws, hacc]) t ht

/-- A list of non-whitespace characters has no two adjacent whitespace
characters. -/
theorem chain_of_all_not_ws (l : List Char)
    (h : l.all (fun c => !pyWs c) = true) :
    List.Chain' (fun a b => ¬(pyWs a = true ∧ pyWs b = true)) l := by
  induction l with
  | nil => simp
  | cons c cs ih =>
    rw [List.all_cons, Bool.and_eq_true] at h
    rw [List.chain'_cons']
    refine ⟨?_, ih h.2⟩
    intro y _ hcontra
    rw [hcontra.1] at h
    simpa using h.1

/-- The head of a space-join of nonempty whitespace-free tokens is not
whitespace. -/
theorem joinWithSpace_head (ts : List (List Char))
    (h : ∀ t ∈ ts, t ≠ [] ∧ t.all (fun c => !pyWs c) = true) :
    ∀ x, (joinWithSpace ts).head? = some x → pyWs x = false := by
  cases ts with
  | nil =>
    intro x hx
    simp [joinWithSpace] at hx
  | cons t ts' =>
    have ht := h t (List.mem_cons_self _ _)
    intro x hx
    cases htl : t with
    | nil => exact absurd htl ht.1
    | cons c cs =>
      subst htl
      have hx2 : c = x := by
        cases ts' with
        | nil => simpa [joinWithSpace] using hx
        | cons t' ts'' => simpa [joinWithSpace] using hx
      subst hx2
      have := ht.2
      rw [List.all_cons, Bool.and_eq_true] at this
      simpa using this.1

/-- A space-join of nonempty whitespace-free tokens has no two adjacent
whitespace characters. -/
theorem joinWithSpace_chain (ts : List (List Char))
    (h : ∀ t ∈ ts, t ≠ [] ∧ t.all (fun c => !pyWs c) = true) :
    List.Chain' (fun a b => ¬(pyWs a = true ∧ pyWs b = true))
      (joinWithSpace ts) := by
  induction ts with
  | nil => simp [joinWithSpace]
  | cons t ts' ih =>
    have ht := h t (List.mem_cons_self _ _)
    have hrest : ∀ u ∈ ts', u ≠ [] ∧ u.all (fun c => !pyWs c) = true :=
      fun u hu => h u (List.mem_cons_of_mem _ hu)
    cases ts' with
    | nil =>
      show List.Chain' _ (joinWithSpace [t])
      simpa [joinWithSpace] using chain_of_all_not_ws t ht.2
    | cons t' ts'' =>
      show List.Chain' _ (t ++ ' ' :: joinWithSpace (t' :: ts''))
      rw [List.chain'_append]
      refine ⟨chain_of_all_not_ws t ht.2, ?_, ?_⟩
      · rw [List.chain'_cons']
        refine ⟨?_, ih hrest⟩
        intro y hy hcontra
        have hyget : (joinWithSpace (t' :: ts'')).head? = some y := hy
        have := joinWithSpace_head (t' :: ts'') hrest y hyget
        simp [this] at hcontra
      · intro x hx y _ hcontra
        have hxt : x ∈ t := by
          have : t.getLast? = some x := hx
          exact List.mem_of_getLast?_eq_some this
        have := List.all_eq_true.mp ht.2 x hxt
        rw [hcontra.1] at this
        simp at this

/-- Every character of a space-join is a space or comes from a token. -/
theorem joinWithSpace_mem (ts : List (List Char)) (c : Char)
    (hc : c ∈ joinWithSpace ts) : c = ' ' ∨ ∃ t, t ∈ ts ∧ c ∈ t := by
  induction ts with
  | nil => simp [joinWithSpace] at hc
  | cons t ts' ih =>
    cases ts' with
    | nil =>
      right
      refine ⟨t, List.mem_cons_self _ _, ?_⟩
      simpa [joinWithSpace] using hc
    | cons t' ts'' =>
      have hc2 : c ∈ t ++ ' ' :: joinWithSpace (t' :: ts'') := hc
      rw [List.mem_append] at hc2
      rcases hc2 with h | h
      · exact Or.inr ⟨t, List.mem_cons_self _ _, h⟩
      · rcases List.mem_cons.mp h with rfl | h'
        · exact Or.inl rfl
        · rcases ih h' with h'' | ⟨u, hu, hcu⟩
          · exact Or.inl h''
          · exact Or.inr ⟨u, List.mem_cons_of_mem _ hu, hcu⟩

/-- C10: for every input string, `sanitize_filename` returns a string of
length at most 200 containing none of the invalid characters
`< > : " / \ | ? *`, with no two consecutive whitespace characters and no
leading or trailing whitespace. -/
theorem c10_sanitize_filename_props (s : List Char) :
    (sanitize_filename s).length ≤ 200 ∧
    (∀ c, c ∈ sanitize_filename s → invalid_chars.contains c = false) ∧
    List.Chain' (fun a b => ¬(pyWs a = true ∧ pyWs b = true))
      (sanitize_filename s) ∧
    (∀ c, (sanitize_filename s).head? = some c → pyWs c = false) ∧
    (∀ c, (sanitize_filename s).getLast? = some c → pyWs c = false) := by
  have hsan : sanitize_filename s =
      pyStrip (if 200 <
          (joinWithSpace (pySplit
            (s.filter (fun c => !(invalid_chars.contains c))))).length
        then (joinWithSpace (pySplit
            (s.filter (fun c => !(invalid_chars.contains c))))).take 200
        else joinWithSpace (pySplit
            (s.filter (fun c => !(invalid_chars.contains c))))) := rfl
  set s1 := s.filter (fun c => !(invalid_chars.contains c)) with hs1
  set s2 := joinWithSpace (pySplit s1) with hs2
  set s3 := (if 200 < s2.length then s2.take 200 else s2) with hs3
  rw [hsan]
  have h3len : s3.length ≤ 200 := by
    rw [hs3]
    split
    · rw [List.length_take]
      exact min_le_left _ _
    · omega
  refine ⟨?_, ?_, ?_, ?_, ?_⟩
  · calc (pyStrip s3).length
        = ((s3.dropWhile pyWs).reverse.dropWhile pyWs).length := by
          rw [pyStrip, List.length_reverse]
      _ ≤ (s3.dropWhile pyWs).reverse.length :=
          (List.dropWhile_sublist _).length_le
      _ = (s3.dropWhile pyWs).length := List.length_reverse _
      _ ≤ s3.length := (List.dropWhile_sublist _).length_le
      _ ≤ 200 := h3len
  · intro c hc
    have h1 : c ∈ s3 := by
      rw [pyStrip] at hc
      rw [List.mem_reverse] at hc
      have h2 := (List.dropWhile_sublist _).subset hc
      rw [List.mem_reverse] at h2
      exact (List.dropWhile_sublist _).subset h2
    have h2 : c ∈ s2 := by
      rw [hs3] at h1
      revert h1
      split
      · intro h1
        exact (List.take_sublist _ _).subset h1
      · exact id
    rcases joinWithSpace_mem _ c h2 with rfl | ⟨t, htmem, hct⟩
    · decide
    · rcases pySplitAux_mem s1 [] t htmem c hct with h | h
      · rw [hs1, List.mem_filter] at h
        simpa using h.2
      · simp at h
  · have hchain2 : List.Chain' (fun a b => ¬(pyWs a = true ∧ pyWs b = true))
        s2 :=
      joinWithSpace_chain (pySplit s1) (pySplitAux_tokens s1 [] rfl)
    have hchain3 : List.Chain'
        (fun a b => ¬(pyWs a = true ∧ pyWs b = true)) s3 := by
      rw [hs3]
      split
      · exact hchain2.take _
      · exact hchain2
    rw [pyStrip]
    have hA := hchain3.suffix (List.dropWhile_suffix pyWs)
    have hB : List.Chain' (fun a b => ¬(pyWs a = true ∧ pyWs b = true))
        (s3.dropWhile pyWs).reverse := by
      rw [List.chain'_reverse]
      exact hA.imp (fun a b hab hcon => hab ⟨hcon.2, hcon.1⟩)
    have hC := hB.suffix (List.dropWhile_suffix pyWs)
    rw [List.chain'_reverse]
    exact hC.imp (fun a b hab hcon => hab ⟨hcon.2, hcon.1⟩)
  · intro c hc
    rw [pyStrip, List.head?_reverse] at hc
    obtain ⟨pre, hpre⟩ :=
      List.dropWhile_suffix (l := (s3.dropWhile pyWs).reverse) pyWs
    have hlast2 : (s3.dropWhile pyWs).reverse.getLast? = some c := by
      rw [← hpre, List.getLast?_append, hc]
      rfl
    rw [List.getLast?_reverse] at hlast2
    have h := List.head?_dropWhile_not pyWs s3
    rw [hlast2] at h
    exact h
  · intro c hc
    rw [pyStrip, List.getLast?_reverse] at hc
    have h := List.head?_dropWhile_not pyWs (s3.dropWhile pyWs).reverse
    rw [hc] at h
    exact h

/-- Prefix of `s` before the first character satisfying `p`, paired with
the rest of `s` from that character on (`(s, [])` when no character
satisfies `p`). -/
def splitAtFirst (p : Char → Bool) : List Char → List Char × List Char
  | [] => ([], [])
  | c :: cs =>
    if p c then ([], c :: cs)
    else
      let r := splitAtFirst p cs
      (c :: r.1, r.2)

/-- Characters Python's `urlsplit` allows in a scheme
(`scheme_chars = letters + digits + '+-.'`). -/
def isSchemeChar (c : Char) : Bool :=
  c.isAlphanum || c == '+' || c == '-' || c == '.'

/-- The scheme split of Python's `urlsplit`: a nonempty all-scheme-char
prefix starting with a letter and followed by `':'` is removed and
lowercased; otherwise the url is unchanged with empty scheme. -/
def splitScheme (s : List Char) : List Char × List Char :=
  match splitAtFirst (fun c => c == ':') s with
  | (pre, ':' :: rest) =>
    match pre with
    | [] => ([], s)
    | c :: cs =>
      if c.isAlpha && (c :: cs).all isSchemeChar then
        ((c :: cs).map Char.toLower, rest)
      else ([], s)
  | _ => ([], s)

/-- A character that terminates the netloc in Python's `_splitnetloc`. -/
def isNetlocEnd (c : Char) : Bool := c == '/' || c == '?' || c == '#'

/-- The netloc split of Python's `urlsplit`: when the remaining url starts
with `//`, the netloc extends to the next `/`, `?` or `#`. -/
def splitNetloc (s : List Char) : List Char × List Char :=
  match s with
  | c1 :: c2 :: rest =>
    if c1 == '/' && c2 == '/' then splitAtFirst isNetlocEnd rest
    else ([], s)
  | _ => ([], s)

/-- `url.split('#', 1)` of Python's `urlsplit` (fragment after the first
`#`, if any). -/
def splitFragment (s : List Char) : List Char × List Char :=
  match splitAtFirst (fun c => c == '#') s with
  | (a, _ :: f) => (a, f)
  | (a, []) => (a, [])

/-- `url.split('?', 1)` of Python's `urlsplit` (query after the first `?`,
if any). -/
def splitQuery (s : List Char) : List Char × List Char :=
  match splitAtFirst (fun c => c == '?') s with
  | (a, _ :: q) => (a, q)
  | (a, []) => (a, [])

/-- Split at the LAST occurrence of `ch`: `some (before, after)`, or `none`
when `ch` does not occur. -/
def splitAtLast (ch : Char) (s : List Char) : Option (List Char × List Char) :=
  match splitAtFirst (fun c => c == ch) s.reverse with
  | (rsuf, _ :: rpre) => some (rpre.reverse, rsuf.reverse)
  | (_, []) => none

/-- Parameter split of one path segment `seg` preceded by `pre ++ '/'`:
everything after the first `;` of `seg` becomes the parameters; with no
`;` the whole string `s` stays the path. -/
def splitParamsKeep (s pre seg : List Char) : List Char × List Char :=
  match splitAtFirst (fun c => c == ';') seg with
  | (a, _ :: rest) => (pre ++ '/' :: a, rest)
  | (_, []) => (s, [])

/-- Parameter split when the path has no `/` at all. -/
def splitParamsNoSlash (s : List Char) : List Char × List Char :=
  match splitAtFirst (fun c => c == ';') s with
  | (a, _ :: rest) => (a, rest)
  | (_, []) => (s, [])

/-- `_splitparams` of Python's `urlparse`: parameters after the first `;`
of the LAST path segment are split off the path. -/
def splitParams (s : List Char) : List Char × List Char :=
  match splitAtLast '/' s with
  | some (pre, post) => splitParamsKeep s pre post
  | none => splitParamsNoSlash s

/-- Result of Python's `urlparse` restricted to the fields
`extract_video_id` reads. -/
structure PyUrl where
  scheme : List Char
  netloc : List Char
  path : List Char
  query : List Char
  fragment : List Char
  deriving DecidableEq, Repr

/-- Python's `urllib.parse.urlparse` (scheme, netloc, params and fragment
handling as in CPython's `urlsplit` + `_splitparams`; percent-decoding
does not occur at this level).  Fragment is split before query, and
parameters are split from the last path segment. -/
def pyUrlparse (s : List Char) : PyUrl :=
  ⟨(splitScheme s).1,
   (splitNetloc (splitScheme s).2).1,
   (splitParams (splitQuery (splitFragment
       (splitNetloc (splitScheme s).2).2).1).1).1,
   (splitQuery (splitFragment (splitNetloc (splitScheme s).2).2).1).2,
   (splitFragment (splitNetloc (splitScheme s).2).2).2⟩

/-- `netloc.rpartition('@')[2]` of CPython's `_hostinfo`. -/
def afterLastAt (s : List Char) : List Char :=
  match splitAtLast '@' s with
  | some (_, post) => post
  | none => s

/-- The `hostname` property of a parse result: the netloc after the last
`@`, with any `:port` removed, lowercased; `None` when empty.  (The
bracketed IPv6 form does not occur in the URLs handled here.) -/
def hostnameOf (netloc : List Char) : Option (List Char) :=
  let h := ((splitAtFirst (fun c => c == ':') (afterLastAt netloc)).1).map
      Char.toLower
  if h = [] then none else some h

/-- Python's `str.split(ch)` (single-character separator, keeping empty
pieces). -/
def splitOnChar (ch : Char) : List Char → List (List Char)
  | [] => [[]]
  | c :: cs =>
    if c == ch then [] :: splitOnChar ch cs
    else
      match splitOnChar ch cs with
      | [] => [[c]]
      | p :: ps => (c :: p) :: ps

/-- The name/value pairs of Python's `parse_qsl(qs)` with default options:
split on `&`, split each piece at the first `=`, drop pieces without `=`
and pairs with an empty value.  (Percent/plus decoding is the identity on
the inputs considered here.) -/
def qsPairs (q : List Char) : List (List Char × List Char) :=
  (splitOnChar '&' q).filterMap (fun pair =>
    match splitAtFirst (fun c => c == '=') pair with
    | (k, _ :: v) => if v = [] then none else some (k, v)
    | (_, []) => none)

/-- `parse_qs(query).get('v', [None])[0]` of `extract_video_id`: the first
value bound to key `v`, or `None`. -/
def parse_qs_get_v (q : List Char) : Option (List Char) :=
  (((qsPairs q).filter (fun p => decide (p.1 = ['v']))).head?).map
    (fun p => p.2)

/-- A character of the regex class `[0-9A-Za-z_-]`. -/
def isTokenChar (c : Char) : Bool := c.isAlphanum || c == '_' || c == '-'

/-- Match `[0-9A-Za-z_-]{11}` at the start of `s` (the trailing `.*` of the
pattern always succeeds and is irrelevant). -/
def matchToken11 (s : List Char) : Option (List Char) :=
  if (s.take 11).length = 11 ∧ (s.take 11).all isTokenChar = true then
    some (s.take 11)
  else none

/-- Try the alternation `(?:v=|/)` followed by the 11-character group at
one start position. -/
def regexTryAt (s : List Char) : Option (List Char) :=
  match s with
  | [] => none
  | c :: cs =>
    if c == 'v' then
      match cs with
      | [] => none
      | d :: ds => if d == '=' then matchToken11 ds else none
    else if c == '/' then matchToken11 cs
    else none

/-- `re.search(r'(?:v=|/)([0-9A-Za-z_-]{11}).*', url)`, returning
`group(1)`: scan start positions left to right. -/
def regexSearch : List Char → Option (List Char)
  | [] => none
  | c :: cs =>
    match regexTryAt (c :: cs) with
    | some g => some g
    | none => regexSearch cs

/-- Python's `str.startswith` on character lists. -/
def listStartsWith : List Char → List Char → Bool
  | [], _ => true
  | _ :: _, [] => false
  | p :: ps, c :: cs => p == c && listStartsWith ps cs

/-- `extract_video_id` of src/transcribe_youtube_smart.py lines 22-38 (the
same function also lives in src/transcribe_youtube.py,
src/transcribe_youtube_api.py and src/transcribe_youtube_ytdlp.py):
host-based parse for watch, embed and short URLs, then the regex
fallback.  On the `/watch` path the function returns
`parse_qs(query).get('v', [None])[0]` directly — `None` when there is no
`v` parameter — and on the youtu.be host it returns `path[1:]`.
`path.split('/')[2]` of the embed branch always exists because the branch
requires the `/embed/` prefix. -/
def extract_video_id (url : List Char) : Option (List Char) :=
  let u := pyUrlparse url
  let host := hostnameOf u.netloc
  if host = some (( "www.youtube.com").toList) ∨
      host = some (( "youtube.com").toList) then
    if u.path = ( "/watch").toList then parse_qs_get_v u.query
    else if listStartsWith (( "/embed/").toList) u.path then
      (splitOnChar '/' u.path)[2]?
    else regexSearch url
  else if host = some (( "youtu.be").toList) ∨
      host = some (( "www.youtu.be").toList) then
    some (u.path.drop 1)
  else regexSearch url

/-- A token-class character is `beq`-distinct from any non-token
character. -/
theorem tokenChar_beq_false {c : Char} (h : isTokenChar c = true) {d : Char}
    (hd : isTokenChar d = false) : (c == d) = false := by
  cases hcd : c == d
  · rfl
  · exact absurd (eq_of_beq hcd ▸ h) (by simp [hd])

/-- A list of token-class characters contains no occurrence of a non-token
character. -/
theorem all_not_special (l : List Char) (hl : l.all isTokenChar = true)
    (d : Char) (hd : isTokenChar d = false) :
    l.all (fun c => !(c == d)) = true := by
  rw [List.all_eq_true] at hl ⊢
  intro c hc
  have := tokenChar_beq_false (hl c hc) hd
  simp [this]

/-- `splitAtFirst` on a list with no hit returns the whole list and an
empty remainder. -/
theorem splitAtFirst_miss (p : Char → Bool) (l : List Char)
    (h : l.all (fun c => !(p c)) = true) : splitAtFirst p l = (l, []) := by
  induction l with
  | nil => rfl
  | cons c cs ih =>
    rw [List.all_cons, Bool.and_eq_true] at h
    have hc : p c = false := by simpa using h.1
    simp [splitAtFirst, hc, ih h.2]

/-- `splitAtFirst` skips over a hit-free prefix. -/
theorem splitAtFirst_append_miss (p : Char → Bool) (l1 l2 : List Char)
    (h : l1.all (fun c => !(p c)) = true) :
    splitAtFirst p (l1 ++ l2) =
      (l1 ++ (splitAtFirst p l2).1, (splitAtFirst p l2).2) := by
  induction l1 with
  | nil => simp
  | cons c cs ih =>
    rw [List.all_cons, Bool.and_eq_true] at h
    have hc : p c = false := by simpa using h.1
    simp [splitAtFirst, hc, ih h.2]

/-- `splitOnChar` on a separator-free list yields one piece. -/
theorem splitOnChar_miss (ch : Char) (l : List Char)
    (h : l.all (fun c => !(c == ch)) = true) : splitOnChar ch l = [l] := by
  induction l with
  | nil => rfl
  | cons c cs ih =>
    rw [List.all_cons, Bool.and_eq_true] at h
    have hc : (c == ch) = false := by simpa using h.1
    simp [splitOnChar, hc, ih h.2]

/-- A separator-free prefix joins the first piece of the rest. -/
theorem splitOnChar_append_miss (ch : Char) (l1 l2 : List Char)
    (h : l1.all (fun c => !(c == ch)) = true) (p : List Char)
    (ps : List (List Char)) (hl2 : splitOnChar ch l2 = p :: ps) :
    splitOnChar ch (l1 ++ l2) = (l1 ++ p) :: ps := by
  induction l1 with
  | nil => simpa using hl2
  | cons c cs ih =>
    rw [List.all_cons, Bool.and_eq_true] at h
    have hc : (c == ch) = false := by simpa using h.1
    simp [splitOnChar, hc, ih h.2]

/-- The regex fallback finds nothing in a string of token-class characters:
the pattern requires a literal `v=` or `/` before the group, and neither
`=` nor `/` is a token-class character. -/
theorem regexSearch_none (l : List Char) (h : l.all isTokenChar = true) :
    regexSearch l = none := by
  induction l with
  | nil => rfl
  | cons c cs ih =>
    rw [List.all_cons, Bool.and_eq_true] at h
    have hcs := ih h.2
    have htry : regexTryAt (c :: cs) = none := by
      simp only [regexTryAt]
      cases hv : c == 'v'
      · have hsl : (c == '/') = false :=
          tokenChar_beq_false h.1 (by decide)
        simp [hsl]
      · cases cs with
        | nil => simp
        | cons d ds =>
          have h2 := h.2
          rw [List.all_cons, Bool.and_eq_true] at h2
          have hd : (d == '=') = false :=
            tokenChar_beq_false h2.1 (by decide)
          simp [hd]
    simp [regexSearch, htry, hcs]

/-- Canonical watch URL wrapping an identifier. -/
def watchUrl (id : List Char) : List Char :=
  ( "https://www.youtube.com/watch?v=").toList ++ id

/-- Short URL wrapping an identifier. -/
def shortUrl (id : List Char) : List Char :=
  ( "https://youtu.be/").toList ++ id

/-- Embed URL wrapping an identifier. -/
def embedUrl (id : List Char) : List Char :=
  ( "https://www.youtube.com/embed/").toList ++ id

/-- A valid video identifier: 11 characters of the class `[0-9A-Za-z_-]`. -/
def ValidId (id : List Char) : Prop :=
  id.length = 11 ∧ id.all isTokenChar = true

/-- `urlparse` of a watch URL. -/
theorem pyUrlparse_watch (id : List Char) (hall : id.all isTokenChar = true) :
    pyUrlparse (watchUrl id) =
      ⟨( "https").toList, ( "www.youtube.com").toList,
       ( "/watch").toList, 'v' :: '=' :: id, []⟩ := by
  have hnet : (splitNetloc (splitScheme (watchUrl id)).2).2 =
      ( "/watch?v=").toList ++ id := rfl
  have hf : splitFragment (( "/watch?v=").toList ++ id) =
      (( "/watch?v=").toList ++ id, []) := by
    unfold splitFragment
    rw [splitAtFirst_miss _ _ (by
      rw [List.all_append, Bool.and_eq_true]
      exact ⟨by decide, all_not_special id hall '#' (by decide)⟩)]
  have hf1 : (splitFragment (( "/watch?v=").toList ++ id)).1 =
      ( "/watch?v=").toList ++ id := by rw [hf]
  have hf2 : (splitFragment (( "/watch?v=").toList ++ id)).2 = [] := by
    rw [hf]
  have hq : splitQuery (( "/watch?v=").toList ++ id) =
      (( "/watch").toList, 'v' :: '=' :: id) := rfl
  have hq1 : (splitQuery (( "/watch?v=").toList ++ id)).1 =
      ( "/watch").toList := by rw [hq]
  have hq2 : (splitQuery (( "/watch?v=").toList ++ id)).2 =
      'v' :: '=' :: id := by rw [hq]
  unfold pyUrlparse
  rw [hnet, hf1, hf2, hq1, hq2]
  rfl

/-- `extract_video_id` recovers the identifier from a watch URL. -/
theorem extract_watch (id : List Char) (h : ValidId id) :
    extract_video_id (watchUrl id) = some id := by
  obtain ⟨hlen, hall⟩ := h
  have hne : id ≠ [] := by
    intro h0
    rw [h0] at hlen
    simp at hlen
  have hamp : splitOnChar '&' ('v' :: '=' :: id) = ['v' :: '=' :: id] := by
    apply splitOnChar_miss
    simp only [List.all_cons, Bool.and_eq_true]
    exact ⟨by decide, by decide, all_not_special id hall '&' (by decide)⟩
  simp only [extract_video_id]
  rw [pyUrlparse_watch id hall]
  show parse_qs_get_v ('v' :: '=' :: id) = some id
  have hsaf : splitAtFirst (fun c => c == '=') ('v' :: '=' :: id) =
      (['v'], '=' :: id) := rfl
  simp [parse_qs_get_v, qsPairs, hamp, hsaf, hne]

/-- `urlparse` of a short URL. -/
theorem pyUrlparse_short (id : List Char)
    (hall : id.all isTokenChar = true) :
    pyUrlparse (shortUrl id) =
      ⟨( "https").toList, ( "youtu.be").toList, '/' :: id, [], []⟩ := by
  have hnet : (splitNetloc (splitScheme (shortUrl id)).2).2 = '/' :: id :=
    rfl
  have hnohash : ('/' :: id).all (fun c => !(c == '#')) = true := by
    simp only [List.all_cons, Bool.and_eq_true]
    exact ⟨by decide, all_not_special id hall '#' (by decide)⟩
  have hnoq : ('/' :: id).all (fun c => !(c == '?')) = true := by
    simp only [List.all_cons, Bool.and_eq_true]
    exact ⟨by decide, all_not_special id hall '?' (by decide)⟩
  have hf : splitFragment ('/' :: id) = ('/' :: id, []) := by
    unfold splitFragment
    rw [splitAtFirst_miss _ _ hnohash]
  have hf1 : (splitFragment ('/' :: id)).1 = '/' :: id := by rw [hf]
  have hf2 : (splitFragment ('/' :: id)).2 = [] := by rw [hf]
  have hq : splitQuery ('/' :: id) = ('/' :: id, []) := by
    unfold splitQuery
    rw [splitAtFirst_miss _ _ hnoq]
  have hq1 : (splitQuery ('/' :: id)).1 = '/' :: id := by rw [hq]
  have hq2 : (splitQuery ('/' :: id)).2 = [] := by rw [hq]
  have hsl : splitAtFirst (fun c => c == '/') (id.reverse ++ ['/']) =
      (id.reverse, ['/']) := by
    rw [splitAtFirst_append_miss _ _ _ (by
      rw [List.all_reverse]
      exact all_not_special id hall '/' (by decide))]
    simp [splitAtFirst]
  have hlast : splitAtLast '/' ('/' :: id) = some ([], id) := by
    unfold splitAtLast
    rw [show ('/' :: id).reverse = id.reverse ++ ['/'] by simp, hsl]
    simp
  have hp : splitParams ('/' :: id) = ('/' :: id, []) := by
    unfold splitParams
    rw [hlast]
    show splitParamsKeep ('/' :: id) [] id = ('/' :: id, [])
    unfold splitParamsKeep
    rw [splitAtFirst_miss _ _ (all_not_special id hall ';' (by decide))]
  have hp1 : (splitParams ('/' :: id)).1 = '/' :: id := by rw [hp]
  unfold pyUrlparse
  rw [hnet, hf1, hf2, hq1, hq2, hp1]
  rfl

/-- `extract_video_id` recovers the identifier from a short URL. -/
theorem extract_short (id : List Char) (h : ValidId id) :
    extract_video_id (shortUrl id) = some id := by
  obtain ⟨hlen, hall⟩ := h
  simp only [extract_video_id]
  rw [pyUrlparse_short id hall]
  rfl

/-- `urlparse` of an embed URL. -/
theorem pyUrlparse_embed (id : List Char)
    (hall : id.all isTokenChar = true) :
    pyUrlparse (embedUrl id) =
      ⟨( "https").toList, ( "www.youtube.com").toList,
       ( "/embed/").toList ++ id, [], []⟩ := by
  have hnet : (splitNetloc (splitScheme (embedUrl id)).2).2 =
      ( "/embed/").toList ++ id := rfl
  have hnohash : (( "/embed/").toList ++ id).all
      (fun c => !(c == '#')) = true := by
    rw [List.all_append, Bool.and_eq_true]
    exact ⟨by decide, all_not_special id hall '#' (by decide)⟩
  have hnoq : (( "/embed/").toList ++ id).all
      (fun c => !(c == '?')) = true := by
    rw [List.all_append, Bool.and_eq_true]
    exact ⟨by decide, all_not_special id hall '?' (by decide)⟩
  have hf : splitFragment (( "/embed/").toList ++ id) =
      (( "/embed/").toList ++ id, []) := by
    unfold splitFragment
    rw [splitAtFirst_miss _ _ hnohash]
  have hf1 : (splitFragment (( "/embed/").toList ++ id)).1 =
      ( "/embed/").toList ++ id := by rw [hf]
  have hf2 : (splitFragment (( "/embed/").toList ++ id)).2 = [] := by
    rw [hf]
  have hq : splitQuery (( "/embed/").toList ++ id) =
      (( "/embed/").toList ++ id, []) := by
    unfold splitQuery
    rw [splitAtFirst_miss _ _ hnoq]
  have hq1 : (splitQuery (( "/embed/").toList ++ id)).1 =
      ( "/embed/").toList ++ id := by rw [hq]
  have hq2 : (splitQuery (( "/embed/").toList ++ id)).2 = [] := by rw [hq]
  have hsl : splitAtFirst (fun c => c == '/')
      (id.reverse ++ (( "/embed/").toList).reverse) =
      (id.reverse, (( "/embed/").toList).reverse) := by
    rw [splitAtFirst_append_miss _ _ _ (by
      rw [List.all_reverse]
      exact all_not_special id hall '/' (by decide))]
    simp [splitAtFirst]
  have hlast : splitAtLast '/' (( "/embed/").toList ++ id) =
      some (( "/embed").toList, id) := by
    unfold splitAtLast
    rw [show (( "/embed/").toList ++ id).reverse =
      id.reverse ++ (( "/embed/").toList).reverse by simp, hsl]
    simp
  have hp : splitParams (( "/embed/").toList ++ id) =
      (( "/embed/").toList ++ id, []) := by
    unfold splitParams
    rw [hlast]
    show splitParamsKeep (( "/embed/").toList ++ id) (( "/embed").toList)
        id = (( "/embed/").toList ++ id, [])
    unfold splitParamsKeep
    rw [splitAtFirst_miss _ _ (all_not_special id hall ';' (by decide))]
  have hp1 : (splitParams (( "/embed/").toList ++ id)).1 =
      ( "/embed/").toList ++ id := by rw [hp]
  unfold pyUrlparse
  rw [hnet, hf1, hf2, hq1, hq2, hp1]
  rfl

/-- `extract_video_id` recovers the identifier from an embed URL. -/
theorem extract_embed (id : List Char) (h : ValidId id) :
    extract_video_id (embedUrl id) = some id := by
  obtain ⟨hlen, hall⟩ := h
  have h1 : splitOnChar '/' id = [id] :=
    splitOnChar_miss '/' id (all_not_special id hall '/' (by decide))
  have h2 : splitOnChar '/' ('/' :: id) = [[], id] := by
    rw [show splitOnChar '/' ('/' :: id) = [] :: splitOnChar '/' id from
      rfl, h1]
  have h3 := splitOnChar_append_miss '/' (( "embed").toList) ('/' :: id)
    (by decide) [] [id] h2
  have h4 : splitOnChar '/' (( "/embed/").toList ++ id) =
      [[], ( "embed").toList, id] := by
    calc splitOnChar '/' (( "/embed/").toList ++ id)
        = [] :: splitOnChar '/' (( "embed").toList ++ ('/' :: id)) := rfl
      _ = [] :: (( "embed").toList ++ []) :: [id] := by rw [h3]
      _ = [[], ( "embed").toList, id] := by simp
  simp only [extract_video_id]
  rw [pyUrlparse_embed id hall]
  show (splitOnChar '/' (( "/embed/").toList ++ id))[2]? = some id
  rw [h4]
  simp

/-- `extract_video_id` on a bare identifier: no host pattern applies and
the regex fallback finds neither `v=` nor `/`, so the result is `none`. -/
theorem extract_bare (id : List Char) (h : ValidId id) :
    extract_video_id id = none := by
  obtain ⟨hlen, hall⟩ := h
  cases id with
  | nil => simp at hlen
  | cons a as =>
    cases as with
    | nil => simp at hlen
    | cons b bs =>
      have hall2 := hall
      rw [List.all_cons, Bool.and_eq_true] at hall2
      obtain ⟨ha, _⟩ := hall2
      have hsch : splitScheme (a :: b :: bs) = ([], a :: b :: bs) := by
        unfold splitScheme
        rw [splitAtFirst_miss _ _ (all_not_special _ hall ':' (by decide))]
      have hsch1 : (splitScheme (a :: b :: bs)).1 = [] := by rw [hsch]
      have hsch2 : (splitScheme (a :: b :: bs)).2 = a :: b :: bs := by
        rw [hsch]
      have hnet : splitNetloc (a :: b :: bs) = ([], a :: b :: bs) := by
        unfold splitNetloc
        have ha2 : (a == '/') = false := tokenChar_beq_false ha (by decide)
        simp [ha2]
      have hnet1 : (splitNetloc (a :: b :: bs)).1 = [] := by rw [hnet]
      have hnet2 : (splitNetloc (a :: b :: bs)).2 = a :: b :: bs := by
        rw [hnet]
      have hfr : splitFragment (a :: b :: bs) = (a :: b :: bs, []) := by
        unfold splitFragment
        rw [splitAtFirst_miss _ _ (all_not_special _ hall '#' (by decide))]
      have hfr1 : (splitFragment (a :: b :: bs)).1 = a :: b :: bs := by
        rw [hfr]
      have hfr2 : (splitFragment (a :: b :: bs)).2 = [] := by rw [hfr]
      have hqu : splitQuery (a :: b :: bs) = (a :: b :: bs, []) := by
        unfold splitQuery
        rw [splitAtFirst_miss _ _ (all_not_special _ hall '?' (by decide))]
      have hqu1 : (splitQuery (a :: b :: bs)).1 = a :: b :: bs := by
        rw [hqu]
      have hqu2 : (splitQuery (a :: b :: bs)).2 = [] := by rw [hqu]
      have hlastnone : splitAtLast '/' (a :: b :: bs) = none := by
        unfold splitAtLast
        rw [splitAtFirst_miss _ _ (by
          rw [List.all_reverse]
          exact all_not_special _ hall '/' (by decide))]
      have hpar : splitParams (a :: b :: bs) = (a :: b :: bs, []) := by
        unfold splitParams
        rw [hlastnone]
        show splitParamsNoSlash (a :: b :: bs) = (a :: b :: bs, [])
        unfold splitParamsNoSlash
        rw [splitAtFirst_miss _ _ (all_not_special _ hall ';' (by decide))]
      have hpar1 : (splitParams (a :: b :: bs)).1 = a :: b :: bs := by
        rw [hpar]
      have hurl : pyUrlparse (a :: b :: bs) =
          ⟨[], [], a :: b :: bs, [], []⟩ := by
        unfold pyUrlparse
        rw [hsch1, hsch2, hnet1, hnet2, hfr1, hfr2, hqu1, hqu2, hpar1]
      simp only [extract_video_id]
      rw [hurl]
      show regexSearch (a :: b :: bs) = none
      exact regexSearch_none _ hall

/-- Counterexample to C8 as stated: `extract_video_id` applied to the bare
11-character identifier `dQw4w9WgXcQ` returns `None` — the regex fallback
requires a preceding `v=` or `/`, so the bare-identifier shape is not
resolved. -/
theorem c8_counterexample :
    extract_video_id (( "dQw4w9WgXcQ").toList) = none := by decide

/-- C8 (amended): for every valid 11-character identifier,
`extract_video_id` returns that identifier for each of the three URL
shapes (watch, short, embed), i.e. it is constant across them, but the
bare identifier string itself is NOT resolved: it returns `None`. -/
theorem c8_url_shapes_amended (id : List Char) (h : ValidId id) :
    extract_video_id (watchUrl id) = some id ∧
    extract_video_id (shortUrl id) = some id ∧
    extract_video_id (embedUrl id) = some id ∧
    extract_video_id id = none :=
  ⟨extract_watch id h, extract_short id h, extract_embed id h,
   extract_bare id h⟩

/-- Witness for the amended C8 at the concrete identifier `dQw4w9WgXcQ`. -/
theorem c8_witness :
    extract_video_id (watchUrl (( "dQw4w9WgXcQ").toList)) =
        some (( "dQw4w9WgXcQ").toList) ∧
    extract_video_id (shortUrl (( "dQw4w9WgXcQ").toList)) =
        some (( "dQw4w9WgXcQ").toList) ∧
    extract_video_id (embedUrl (( "dQw4w9WgXcQ").toList)) =
        some (( "dQw4w9WgXcQ").toList) ∧
    extract_video_id (( "dQw4w9WgXcQ").toList) = none :=
  c8_url_shapes_amended (( "dQw4w9WgXcQ").toList) ⟨by decide, by decide⟩
